import Mathlib

/-!
Verification development for the powerpoint-se-rfp repository.

The repository contains two near-duplicate implementations of a keyword
classifier (`analyze_requirements`) and of a block-layout routine:

* `direct_generator.py` / `unified_powerpoint_generator.py`
  (`DirectBuildingBlockGenerator.analyze_requirements`,
  `create_conceptual_slide`, `create_azure_specific_slide`): modelled here
  in namespace `DirectGenerator`.  The two Python files contain character
  for character the same classifier and the same layout arithmetic, and
  `create_azure_specific_slide` repeats the geometry of
  `create_conceptual_slide` with a different (equally four-element)
  catalog, so a single embedding covers them.
* `building_block_agent.py` (`BuildingBlockAgent.analyze_requirements`,
  `create_building_block_slide`): modelled in namespace
  `BuildingBlockAgent`.

Requirement strings are modelled as `List Char`; category identifiers as
`String`; the inch-valued geometry as `ℚ` (every constant in the source
is a decimal literal and every claim compares results of the one
computation, so exact rationals are a faithful model of the float
arithmetic).  Python's `x in s` substring test is `containsSub`,
`str.lower` is `lowerStr`, and `list(dict.fromkeys(l))` is `dedupFirst`.
A Python run that raises `ZeroDivisionError` is modelled as `none`.
-/

namespace PPT

/-- Model of Python `str.lower` (ASCII case folding). -/
def lowerStr (s : List Char) : List Char := s.map Char.toLower

/-- Model of Python's substring test `kw in s`. -/
def containsSub (kw : List Char) : List Char → Bool
  | [] => kw.isEmpty
  | c :: t => kw.isPrefixOf (c :: t) || containsSub kw t

/-- Model of Python `any(term in r for term in kws)`. -/
def anyKw (kws : List String) (r : List Char) : Bool :=
  kws.any (fun kw => containsSub kw.toList r)

/-- Helper for `dedupFirst`: `seen` is the set of keys already emitted. -/
def dedupFirstAux (seen : List String) : List String → List String
  | [] => []
  | a :: l => if a ∈ seen then dedupFirstAux seen l else a :: dedupFirstAux (a :: seen) l

/-- Model of Python `list(dict.fromkeys(l))`: duplicates removed, first
occurrence wins, order preserved. -/
def dedupFirst (l : List String) : List String := dedupFirstAux [] l

namespace DirectGenerator

/-- The keyword list of the first check of
`DirectBuildingBlockGenerator.analyze_requirements`. -/
def web_terms : List String :=
  ["user experience", "ux", "frontend", "application layer", "app layer", "web", "portal"]

/-- The keyword list of the second check. -/
def ai_terms : List String :=
  ["data and intelligence", "data intelligence", "analytics", "ai", "machine learning"]

/-- The keyword list of the third check. -/
def integration_terms : List String :=
  ["integration layer", "integration", "api"]

/-- The `categories` list built by
`DirectBuildingBlockGenerator.analyze_requirements` before the final
`list(dict.fromkeys(...))`; the argument is the already lowercased
requirement string. -/
def categories_pre (r : List Char) : List String :=
  (if anyKw web_terms r then ["web_application"] else []) ++
  (if anyKw ai_terms r then
     "ai_analytics" :: (if containsSub ("data").toList r then ["data_platform"] else [])
   else []) ++
  (if anyKw integration_terms r then ["integration"] else [])

/-- `DirectBuildingBlockGenerator.analyze_requirements` (identical to
`UnifiedPowerPointGenerator.analyze_requirements`). -/
def analyze_requirements (requirements : List Char) : List String :=
  dedupFirst (categories_pre (lowerStr requirements))

end DirectGenerator

namespace BuildingBlockAgent

/-- `ai_keywords` of `BuildingBlockAgent.analyze_requirements`. -/
def ai_keywords : List String :=
  ["ai", "analytics", "machine learning", "ml", "data science", "openai", "chatbot",
   "intelligent", "prediction"]

/-- `web_keywords` of `BuildingBlockAgent.analyze_requirements`. -/
def web_keywords : List String :=
  ["web", "website", "portal", "api", "frontend", "backend", "application", "app"]

/-- `data_keywords` of `BuildingBlockAgent.analyze_requirements`. -/
def data_keywords : List String :=
  ["database", "data", "storage", "sql", "cosmos", "warehouse", "lake"]

/-- `integration_keywords` of `BuildingBlockAgent.analyze_requirements`. -/
def integration_keywords : List String :=
  ["integration", "api", "messaging", "event", "workflow", "automation"]

/-- `security_keywords` of `BuildingBlockAgent.analyze_requirements`. -/
def security_keywords : List String :=
  ["security", "authentication", "authorization", "identity", "firewall", "compliance"]

/-- The `needed_categories` appended by the keyword checks of
`BuildingBlockAgent.analyze_requirements`, before the unconditional
`infrastructure` append; the argument is the lowercased requirements. -/
def needed_categories_kw (r : List Char) : List String :=
  (if containsSub ("user experience").toList r || containsSub ("ux").toList r ||
      containsSub ("frontend").toList r then ["web_application"] else []) ++
  (if containsSub ("application layer").toList r || containsSub ("app layer").toList r
   then ["web_application"] else []) ++
  (if containsSub ("data and intelligence").toList r ||
      containsSub ("data intelligence").toList r || containsSub ("analytics").toList r
   then ["ai_analytics", "data_platform"] else []) ++
  (if containsSub ("integration layer").toList r then ["integration"] else []) ++
  (if anyKw ai_keywords r then ["ai_analytics"] else []) ++
  (if anyKw web_keywords r then ["web_application"] else []) ++
  (if anyKw data_keywords r then ["data_platform"] else []) ++
  (if anyKw integration_keywords r then ["integration"] else []) ++
  (if anyKw security_keywords r then ["security"] else [])

/-- The full pre-dedup list: keyword matches plus the unconditional
`infrastructure` append ("Always include infrastructure"). -/
def needed_categories_pre (r : List Char) : List String :=
  needed_categories_kw r ++ ["infrastructure"]

/-- `BuildingBlockAgent.analyze_requirements`. -/
def analyze_requirements (requirements : List Char) : List String :=
  dedupFirst (needed_categories_pre (lowerStr requirements))

end BuildingBlockAgent

/-- One rounded-rectangle building block placed on a slide:
the category id it renders plus its grid cell and inch geometry. -/
structure Block where
  cat : String
  row : Nat
  col : Nat
  x : ℚ
  y : ℚ
  w : ℚ
  h : ℚ
deriving DecidableEq, Repr

/-- The geometry of a block with the category id erased. -/
def Block.geom (b : Block) : Nat × Nat × ℚ × ℚ × ℚ × ℚ := (b.row, b.col, b.x, b.y, b.w, b.h)

/-- One cross-cutting service box of the secondary strip. -/
structure StripBox where
  service : String
  x : ℚ
  y : ℚ
  w : ℚ
  h : ℚ
deriving DecidableEq, Repr

/-- The geometry a slide-building routine emits: the category blocks and
the cross-cutting strip. -/
structure Layout where
  blocks : List Block
  strip : List StripBox
deriving DecidableEq, Repr

/-- The cross-cutting strip: one `box_width = 1.25` by `box_height = 0.6`
rectangle per service name, at `x = start_x_cross + i * (box_width +
spacing_x_cross)` and the given `security_y_pos` (identical loop in all
three layout functions). -/
def stripBoxes (names : List String) (securityY : ℚ) : List StripBox :=
  names.enum.map (fun p => ⟨p.2, 0.5 + (p.1 : ℚ) * (1.25 + 0.05), securityY, 1.25, 0.6⟩)

/-- Blocks-of helper: the blocks of a layout computation, empty if the
computation raised. -/
def blocksOf (o : Option Layout) : List Block := (o.map Layout.blocks).getD []

namespace DirectGenerator

/-- The keys of `conceptual_blocks` (also the keys of the direct
generator's `service_recommendations`), i.e. the categories the direct
generator's slides know how to render. -/
def conceptual_blocks_keys : List String :=
  ["web_application", "ai_analytics", "data_platform", "integration"]

/-- `category in self.conceptual_blocks` in `create_conceptual_slide`. -/
def knownDirect (c : String) : Bool := conceptual_blocks_keys.contains c

/-- `blocks_per_row` of `create_conceptual_slide` /
`create_azure_specific_slide`: `num_categories` when `<= 3`, else 3. -/
def directBPR (n : Nat) : Nat := if n ≤ 3 then n else 3

/-- `block_width` of the same if/else. -/
def directW (n : Nat) : ℚ := if n ≤ 3 then 2.8 else 2.5

/-- `block_height` of the same if/else. -/
def directH (n : Nat) : ℚ := if n ≤ 3 then 2.2 else 2.0

/-- The block the direct generator places for list index `i` when the
full category list has length `n`: `row = i // blocks_per_row`,
`col = i % blocks_per_row`, `x = start_x + col*(w + spacing_x)`,
`y = start_y + row*(h + spacing_y)` with `start_x = 0.5`,
`start_y = 1.3`, `spacing_x = 0.3`, `spacing_y = 0.4`. -/
def directBlockAt (n i : Nat) (c : String) : Block :=
  ⟨c, i / directBPR n, i % directBPR n,
   0.5 + ((i % directBPR n : Nat) : ℚ) * (directW n + 0.3),
   1.3 + ((i / directBPR n : Nat) : ℚ) * (directH n + 0.4),
   directW n, directH n⟩

/-- The block-placement loop `for i, category in enumerate(categories):
if category in self.conceptual_blocks: ...` — a block is emitted only
for catalog-known categories but the index `i` advances for every list
entry.  `n` is the full list length fixed before the loop. -/
def directBlocksAux (n : Nat) : List String → Nat → List Block
  | [], _ => []
  | c :: cs, i =>
    (if knownDirect c then [directBlockAt n i c] else []) ++ directBlocksAux n cs (i + 1)

/-- `security_y_pos = start_y + ((num_categories - 1) // blocks_per_row
+ 1) * (block_height + spacing_y) + 0.3`.  Only meaningful when
`directBPR n ≠ 0`. -/
def securityYDirect (n : Nat) : ℚ :=
  1.3 + (((n - 1) / directBPR n + 1 : Nat) : ℚ) * (directH n + 0.4) + 0.3

/-- `self.conceptual_cross_cutting` of `DirectBuildingBlockGenerator`. -/
def conceptual_cross_cutting : List String :=
  ["Security & Compliance", "Network Security", "Monitoring & Defense",
   "Data Encryption", "System Monitoring", "Backup & Recovery", "Identity Management"]

/-- `DirectBuildingBlockGenerator.create_conceptual_slide` (the geometry
it draws; `UnifiedPowerPointGenerator.create_conceptual_slide` is
identical, and `create_azure_specific_slide` repeats the same arithmetic
over the equal-keyed `service_recommendations` catalog and the
7-element `azure_cross_cutting_services` list).  When
`blocks_per_row = 0` — exactly when `categories` is empty — Python
raises `ZeroDivisionError` at the `security_y_pos` computation, which we
model as `none`; in that case the block loop has placed nothing. -/
def create_conceptual_slide (categories : List String) : Option Layout :=
  if directBPR categories.length = 0 then none
  else
    some ⟨directBlocksAux categories.length categories 0,
          stripBoxes conceptual_cross_cutting (securityYDirect categories.length)⟩

end DirectGenerator

namespace BuildingBlockAgent

/-- The keys of `BuildingBlockAgent.service_recommendations`. -/
def service_recommendations_keys : List String :=
  ["ai_analytics", "web_application", "data_platform", "integration", "security",
   "infrastructure"]

/-- `category in self.service_recommendations` in
`create_building_block_slide`. -/
def knownAgent (c : String) : Bool := service_recommendations_keys.contains c

/-- `num_categories = len([cat for cat in categories if cat in
self.service_recommendations])`. -/
def numKnownAgent (cs : List String) : Nat := (cs.filter (fun c => knownAgent c)).length

/-- `blocks_per_row` of `create_building_block_slide`:
`num_categories` when `<= 3`, else 3 (both remaining tiers). -/
def agentBPR (n : Nat) : Nat := if n ≤ 3 then n else if n ≤ 6 then 3 else 3

/-- `block_width` of the same if/elif/else: 2.8 / 2.5 / 2.2. -/
def agentW (n : Nat) : ℚ := if n ≤ 3 then 2.8 else if n ≤ 6 then 2.5 else 2.2

/-- `block_height` of the same if/elif/else: 2.0 / 1.8 / 1.5. -/
def agentH (n : Nat) : ℚ := if n ≤ 3 then 2.0 else if n ≤ 6 then 1.8 else 1.5

/-- The block-placement loop of `create_building_block_slide`: explicit
`row`/`col` counters that advance only when the category is
catalog-known (`col += 1; if col >= blocks_per_row: col = 0; row += 1`
sits inside the `if category in self.service_recommendations` body);
`start_x = 0.5`, `start_y = 1.8`, `spacing_x = 0.3`, `spacing_y = 0.4`. -/
def agentBlocksAux (bpr : Nat) (w h : ℚ) : List String → Nat → Nat → List Block
  | [], _, _ => []
  | c :: cs, row, col =>
    if knownAgent c then
      ⟨c, row, col, 0.5 + (col : ℚ) * (w + 0.3), 1.8 + (row : ℚ) * (h + 0.4), w, h⟩ ::
      (if col + 1 ≥ bpr then agentBlocksAux bpr w h cs (row + 1) 0
       else agentBlocksAux bpr w h cs row (col + 1))
    else agentBlocksAux bpr w h cs row col

/-- `security_y_pos` of `create_building_block_slide` (`start_y = 1.8`);
only meaningful when `agentBPR n ≠ 0`. -/
def securityYAgent (n : Nat) : ℚ :=
  1.8 + (((n - 1) / agentBPR n + 1 : Nat) : ℚ) * (agentH n + 0.4) + 0.3

/-- The local `cross_cutting_services` list of
`create_building_block_slide`. -/
def cross_cutting_services : List String :=
  ["Azure Policy and Compliance", "Azure Firewall and DDoS",
   "Microsoft Sentinel and Defender", "Encryption", "Azure Monitor",
   "Azure Backup and BCDR", "Microsoft Entra ID"]

/-- `BuildingBlockAgent.create_building_block_slide` (geometry only).
When `blocks_per_row = 0` — exactly when no entry of `categories` is
catalog-known — Python raises `ZeroDivisionError` at `security_y_pos`,
modelled as `none`; in that case the loop has placed no block. -/
def create_building_block_slide (categories : List String) : Option Layout :=
  let n := numKnownAgent categories
  if agentBPR n = 0 then none
  else
    some ⟨agentBlocksAux (agentBPR n) (agentW n) (agentH n) categories 0 0,
          stripBoxes cross_cutting_services (securityYAgent n)⟩

end BuildingBlockAgent

/-- The geometry emitted by `DirectGenerator.create_conceptual_slide`
with category ids erased — what "identical geometry" quantifies over. -/
def geomDirect (cs : List String) :
    Option (List (Nat × Nat × ℚ × ℚ × ℚ × ℚ) × List StripBox) :=
  (DirectGenerator.create_conceptual_slide cs).map
    (fun L => (L.blocks.map Block.geom, L.strip))

/-- The geometry emitted by
`BuildingBlockAgent.create_building_block_slide` with category ids
erased. -/
def geomAgent (cs : List String) :
    Option (List (Nat × Nat × ℚ × ℚ × ℚ × ℚ) × List StripBox) :=
  (BuildingBlockAgent.create_building_block_slide cs).map
    (fun L => (L.blocks.map Block.geom, L.strip))

end PPT

open PPT

/-! ### Generic lemmas about `dedupFirst` (the `list(dict.fromkeys(...))` model) -/

theorem dedupFirstAux_mem (x : String) (l : List String) : ∀ seen : List String,
    x ∈ dedupFirstAux seen l ↔ (x ∈ l ∧ x ∉ seen) := by
  induction l with
  | nil => intro seen; simp [dedupFirstAux]
  | cons a l ih =>
    intro seen
    by_cases h : a ∈ seen
    · rw [show dedupFirstAux seen (a :: l) = dedupFirstAux seen l from by
        simp [dedupFirstAux, h], ih seen]
      constructor
      · rintro ⟨hx, hs⟩
        exact ⟨List.mem_cons_of_mem a hx, hs⟩
      · rintro ⟨hx, hs⟩
        rcases List.mem_cons.mp hx with rfl | hx'
        · exact absurd h hs
        · exact ⟨hx', hs⟩
    · rw [show dedupFirstAux seen (a :: l) = a :: dedupFirstAux (a :: seen) l from by
        simp [dedupFirstAux, h]]
      constructor
      · intro hx
        rcases List.mem_cons.mp hx with rfl | hx'
        · exact ⟨List.mem_cons_self x l, h⟩
        · rcases (ih (a :: seen)).mp hx' with ⟨h1, h2⟩
          exact ⟨List.mem_cons_of_mem a h1, fun hc => h2 (List.mem_cons_of_mem a hc)⟩
      · rintro ⟨hx, hs⟩
        rcases List.mem_cons.mp hx with rfl | hx'
        · exact List.mem_cons_self x _
        · by_cases hxa : x = a
          · subst hxa; exact List.mem_cons_self x _
          · exact List.mem_cons_of_mem a ((ih (a :: seen)).mpr
              ⟨hx', fun hc => (List.mem_cons.mp hc).elim hxa hs⟩)

theorem dedupFirstAux_nodup (l : List String) : ∀ seen : List String,
    (dedupFirstAux seen l).Nodup := by
  induction l with
  | nil => intro seen; simp [dedupFirstAux]
  | cons a l ih =>
    intro seen
    by_cases h : a ∈ seen
    · simpa [dedupFirstAux, h] using ih seen
    · rw [show dedupFirstAux seen (a :: l) = a :: dedupFirstAux (a :: seen) l from by
        simp [dedupFirstAux, h]]
      refine List.nodup_cons.mpr ⟨fun hmem => ?_, ih (a :: seen)⟩
      exact ((dedupFirstAux_mem a l (a :: seen)).mp hmem).2 (List.mem_cons_self a seen)

theorem dedupFirstAux_sublist (l : List String) : ∀ seen : List String,
    List.Sublist (dedupFirstAux seen l) l := by
  induction l with
  | nil => intro seen; simp [dedupFirstAux]
  | cons a l ih =>
    intro seen
    by_cases h : a ∈ seen
    · rw [show dedupFirstAux seen (a :: l) = dedupFirstAux seen l from by
        simp [dedupFirstAux, h]]
      exact (ih seen).trans (List.sublist_cons_self a l)
    · rw [show dedupFirstAux seen (a :: l) = a :: dedupFirstAux (a :: seen) l from by
        simp [dedupFirstAux, h]]
      exact (ih (a :: seen)).cons₂ a

theorem mem_dedupFirst (x : String) (l : List String) : x ∈ dedupFirst l ↔ x ∈ l := by
  rw [dedupFirst, dedupFirstAux_mem]
  simp

theorem dedupFirst_nodup (l : List String) : (dedupFirst l).Nodup :=
  dedupFirstAux_nodup l []

theorem dedupFirst_sublist (l : List String) : List.Sublist (dedupFirst l) l :=
  dedupFirstAux_sublist l []

theorem dedupFirstAux_append_singleton (x : String) (l : List String) :
    ∀ seen : List String, x ∉ l → x ∉ seen →
      dedupFirstAux seen (l ++ [x]) = dedupFirstAux seen l ++ [x] := by
  induction l with
  | nil =>
    intro seen _ hs
    simp [dedupFirstAux, hs]
  | cons a l ih =>
    intro seen hl hs
    have hxa : x ≠ a := fun hc => hl (hc ▸ List.mem_cons_self x l)
    have hl' : x ∉ l := fun hc => hl (List.mem_cons_of_mem a hc)
    by_cases h : a ∈ seen
    · simp only [List.cons_append, dedupFirstAux, h, if_true]
      exact ih seen hl' hs
    · simp only [List.cons_append, dedupFirstAux, h, if_false, List.append_eq]
      rw [ih (a :: seen) hl' (fun hc => (List.mem_cons.mp hc).elim hxa hs)]

theorem dedupFirst_concat_getLast (x : String) (l : List String) (h : x ∉ l) :
    (dedupFirst (l ++ [x])).getLast? = some x := by
  rw [dedupFirst, dedupFirstAux_append_singleton x l [] h (List.not_mem_nil x)]
  exact List.getLast?_concat _

theorem dedupFirstAux_congr (l : List String) : ∀ seen₁ seen₂ : List String,
    (∀ b : String, b ∈ seen₁ ↔ b ∈ seen₂) →
    dedupFirstAux seen₁ l = dedupFirstAux seen₂ l := by
  induction l with
  | nil => intro s1 s2 _; rfl
  | cons a l ih =>
    intro s1 s2 hiff
    by_cases h : a ∈ s1
    · have h2 : a ∈ s2 := (hiff a).mp h
      simp only [dedupFirstAux, h, h2, if_true]
      exact ih s1 s2 hiff
    · have h2 : a ∉ s2 := fun hc => h ((hiff a).mpr hc)
      simp only [dedupFirstAux, h, h2, if_false]
      congr 1
      exact ih (a :: s1) (a :: s2) (fun b => by
        simp only [List.mem_cons]
        exact or_congr Iff.rfl (hiff b))

theorem dedupFirstAux_cons_filter (x : String) (l : List String) : ∀ seen : List String,
    dedupFirstAux (x :: seen) l = dedupFirstAux seen (l.filter (fun b => b ≠ x)) := by
  induction l with
  | nil => intro seen; rfl
  | cons a l ih =>
    intro seen
    by_cases hax : a = x
    · subst hax
      have h1 : a ∈ a :: seen := List.mem_cons_self a seen
      rw [show dedupFirstAux (a :: seen) (a :: l) = dedupFirstAux (a :: seen) l from by
        simp [dedupFirstAux, h1]]
      rw [show (a :: l).filter (fun b => b ≠ a) = l.filter (fun b => b ≠ a) from by
        simp]
      exact ih seen
    · by_cases hseen : a ∈ seen
      · have h1 : a ∈ x :: seen := List.mem_cons_of_mem x hseen
        rw [show dedupFirstAux (x :: seen) (a :: l) = dedupFirstAux (x :: seen) l from by
          simp [dedupFirstAux, h1]]
        rw [show (a :: l).filter (fun b => b ≠ x) = a :: l.filter (fun b => b ≠ x) from by
          simp [List.filter_cons, hax]]
        rw [show dedupFirstAux seen (a :: l.filter (fun b => b ≠ x)) =
            dedupFirstAux seen (l.filter (fun b => b ≠ x)) from by
          simp [dedupFirstAux, hseen]]
        exact ih seen
      · have h1 : a ∉ x :: seen := by
          intro hc
          rcases List.mem_cons.mp hc with h' | h'
          · exact hax h'
          · exact hseen h'
        rw [show dedupFirstAux (x :: seen) (a :: l) =
            a :: dedupFirstAux (a :: x :: seen) l from by simp [dedupFirstAux, h1]]
        rw [show (a :: l).filter (fun b => b ≠ x) = a :: l.filter (fun b => b ≠ x) from by
          simp [List.filter_cons, hax]]
        rw [show dedupFirstAux seen (a :: l.filter (fun b => b ≠ x)) =
            a :: dedupFirstAux (a :: seen) (l.filter (fun b => b ≠ x)) from by
          simp [dedupFirstAux, hseen]]
        congr 1
        rw [dedupFirstAux_congr l (a :: x :: seen) (x :: a :: seen) (fun b => by
          simp only [List.mem_cons]
          constructor
          · rintro (h' | h' | h')
            · exact Or.inr (Or.inl h')
            · exact Or.inl h'
            · exact Or.inr (Or.inr h')
          · rintro (h' | h' | h')
            · exact Or.inr (Or.inl h')
            · exact Or.inl h'
            · exact Or.inr (Or.inr h'))]
        exact ih (a :: seen)

/-- The first-occurrence recursion of `dict.fromkeys`: the head of the
pre-list is kept, and every later duplicate of it is dropped. -/
theorem dedupFirst_cons (a : String) (l : List String) :
    dedupFirst (a :: l) = a :: dedupFirst (l.filter (fun b => b ≠ a)) := by
  show dedupFirstAux [] (a :: l) = a :: dedupFirstAux [] (l.filter (fun b => b ≠ a))
  rw [show dedupFirstAux ([] : List String) (a :: l) = a :: dedupFirstAux [a] l from by
    simp [dedupFirstAux]]
  congr 1
  exact dedupFirstAux_cons_filter a l []

/-- `List.indexOf` order (i.e. first-occurrence order) is preserved by
`filter`, on elements the filter keeps. -/
theorem filter_indexOf_lt (p : String → Bool) (l : List String) : ∀ x y : String,
    x ∈ l.filter p → y ∈ l.filter p →
    ((l.filter p).indexOf x < (l.filter p).indexOf y ↔ l.indexOf x < l.indexOf y) := by
  induction l with
  | nil => intro x y hx _; simp at hx
  | cons b l ih =>
    intro x y hx hy
    by_cases hpb : p b = true
    · rw [List.filter_cons_of_pos hpb] at hx hy ⊢
      by_cases hyb : y = b
      · subst hyb
        rw [List.indexOf_cons_self, List.indexOf_cons_self]
        omega
      · by_cases hxb : x = b
        · subst hxb
          rw [List.indexOf_cons_self, List.indexOf_cons_self,
              List.indexOf_cons_ne _ (fun h => hyb h.symm),
              List.indexOf_cons_ne _ (fun h => hyb h.symm)]
          omega
        · have hx' : x ∈ l.filter p := by
            rcases List.mem_cons.mp hx with h' | h'
            · exact absurd h' hxb
            · exact h'
          have hy' : y ∈ l.filter p := by
            rcases List.mem_cons.mp hy with h' | h'
            · exact absurd h' hyb
            · exact h'
          rw [List.indexOf_cons_ne _ (fun h => hxb h.symm),
              List.indexOf_cons_ne _ (fun h => hyb h.symm),
              List.indexOf_cons_ne _ (fun h => hxb h.symm),
              List.indexOf_cons_ne _ (fun h => hyb h.symm)]
          have hiff := ih x y hx' hy'
          omega
    · rw [List.filter_cons_of_neg hpb] at hx hy ⊢
      have hxb : x ≠ b := by
        intro hc
        subst hc
        exact hpb (List.mem_filter.mp hx).2
      have hyb : y ≠ b := by
        intro hc
        subst hc
        exact hpb (List.mem_filter.mp hy).2
      rw [List.indexOf_cons_ne _ (fun h => hxb h.symm),
          List.indexOf_cons_ne _ (fun h => hyb h.symm)]
      have hiff := ih x y hx hy
      omega

theorem dedupFirst_indexOf_lt_aux (n : Nat) : ∀ l : List String, l.length ≤ n →
    ∀ x y : String, x ∈ l → y ∈ l →
    ((dedupFirst l).indexOf x < (dedupFirst l).indexOf y ↔ l.indexOf x < l.indexOf y) := by
  induction n with
  | zero =>
    intro l hl x y hx _
    have hnil : l = [] := List.length_eq_zero.mp (Nat.le_zero.mp hl)
    subst hnil
    simp at hx
  | succ n ih =>
    intro l hl x y hx hy
    cases l with
    | nil => simp at hx
    | cons a t =>
      rw [dedupFirst_cons]
      by_cases hya : y = a
      · subst hya
        rw [List.indexOf_cons_self, List.indexOf_cons_self]
        omega
      · by_cases hxa : x = a
        · subst hxa
          rw [List.indexOf_cons_self, List.indexOf_cons_self,
              List.indexOf_cons_ne _ (fun h => hya h.symm),
              List.indexOf_cons_ne _ (fun h => hya h.symm)]
          omega
        · have hxt : x ∈ t := by
            rcases List.mem_cons.mp hx with h' | h'
            · exact absurd h' hxa
            · exact h'
          have hyt : y ∈ t := by
            rcases List.mem_cons.mp hy with h' | h'
            · exact absurd h' hya
            · exact h'
          have hxf : x ∈ t.filter (fun b => b ≠ a) := by
            rw [List.mem_filter]
            exact ⟨hxt, by simp [hxa]⟩
          have hyf : y ∈ t.filter (fun b => b ≠ a) := by
            rw [List.mem_filter]
            exact ⟨hyt, by simp [hya]⟩
          rw [List.indexOf_cons_ne _ (fun h => hxa h.symm),
              List.indexOf_cons_ne _ (fun h => hya h.symm),
              List.indexOf_cons_ne _ (fun h => hxa h.symm),
              List.indexOf_cons_ne _ (fun h => hya h.symm)]
          have hfl : (t.filter (fun b => b ≠ a)).length ≤ n := by
            have h1 : (t.filter (fun b => b ≠ a)).length ≤ t.length :=
              List.length_filter_le _ _
            simp only [List.length_cons] at hl
            omega
          have hiff1 := ih (t.filter (fun b => b ≠ a)) hfl x y hxf hyf
          have hiff2 := filter_indexOf_lt (fun b => b ≠ a) t x y hxf hyf
          omega

/-- The two members of `dedupFirst l` are ordered exactly as their
first occurrences (`List.indexOf`) in `l`: first occurrence wins. -/
theorem dedupFirst_indexOf_lt (l : List String) (x y : String) (hx : x ∈ l) (hy : y ∈ l) :
    ((dedupFirst l).indexOf x < (dedupFirst l).indexOf y ↔ l.indexOf x < l.indexOf y) :=
  dedupFirst_indexOf_lt_aux l.length l (Nat.le_refl _) x y hx hy

/-! ### Generic lemmas about the substring test and whitespace -/

theorem subset_of_containsSub (kw : List Char) (s : List Char)
    (h : containsSub kw s = true) : ∀ c ∈ kw, c ∈ s := by
  induction s with
  | nil =>
    intro c hc
    cases kw with
    | nil => exact absurd hc (List.not_mem_nil c)
    | cons d ds => simp [containsSub] at h
  | cons a t ih =>
    intro c hc
    simp only [containsSub, Bool.or_eq_true] at h
    rcases h with h | h
    · exact (List.isPrefixOf_iff_prefix.mp h).subset hc
    · exact List.mem_cons_of_mem a (ih h c hc)

theorem toLower_of_isWhitespace {c : Char} (h : c.isWhitespace = true) : c.toLower = c := by
  simp only [Char.isWhitespace, Bool.or_eq_true, decide_eq_true_eq] at h
  rcases h with ((h | h) | h) | h <;> subst h <;> decide

theorem lowerStr_whitespace {s : List Char} (h : ∀ c ∈ s, c.isWhitespace = true) :
    ∀ c ∈ lowerStr s, c.isWhitespace = true := by
  intro c hc
  rcases List.mem_map.mp hc with ⟨d, hd, rfl⟩
  rw [toLower_of_isWhitespace (h d hd)]
  exact h d hd

theorem containsSub_eq_false_of_whitespace {kw s : List Char}
    (hs : ∀ c ∈ s, c.isWhitespace = true) (hkw : ∃ c ∈ kw, c.isWhitespace = false) :
    containsSub kw s = false := by
  rcases hkw with ⟨c, hck, hcw⟩
  cases hcs : containsSub kw s with
  | false => rfl
  | true =>
    have hw := hs c (subset_of_containsSub kw s hcs c hck)
    simp [hw] at hcw

theorem anyKw_eq_false_of_whitespace (kws : List String) (s : List Char)
    (hs : ∀ c ∈ s, c.isWhitespace = true)
    (hkws : ∀ kw ∈ kws, ∃ c ∈ kw.toList, c.isWhitespace = false) :
    anyKw kws s = false := by
  simp only [anyKw, List.any_eq_false]
  intro kw hkw
  show ¬ containsSub kw.toList s = true
  rw [containsSub_eq_false_of_whitespace hs (hkws kw hkw)]
  simp

/-! ### Lemmas about the two layout engines -/

theorem directBPR_ne_zero {n : Nat} (hn : 0 < n) : DirectGenerator.directBPR n ≠ 0 := by
  unfold DirectGenerator.directBPR
  split <;> omega

theorem agentBPR_ne_zero {n : Nat} (hn : 0 < n) : BuildingBlockAgent.agentBPR n ≠ 0 := by
  unfold BuildingBlockAgent.agentBPR
  split
  · omega
  · split <;> omega

theorem stripBoxes_length (names : List String) (y : ℚ) :
    (stripBoxes names y).length = names.length := by
  simp [stripBoxes]

theorem directBlocksAux_mem (n : Nat) (c : String) (hc : DirectGenerator.knownDirect c = true)
    (post : List String) (pre : List String) : ∀ i : Nat,
    DirectGenerator.directBlockAt n (i + pre.length) c ∈
      DirectGenerator.directBlocksAux n (pre ++ c :: post) i := by
  induction pre with
  | nil =>
    intro i
    simp only [List.nil_append, List.length_nil, Nat.add_zero,
      DirectGenerator.directBlocksAux, hc, if_true]
    exact List.mem_append_left _ (List.mem_singleton.mpr rfl)
  | cons a l ih =>
    intro i
    have harith : i + (a :: l).length = (i + 1) + l.length := by
      simp only [List.length_cons]
      omega
    rw [harith, List.cons_append]
    simp only [DirectGenerator.directBlocksAux]
    exact List.mem_append_right _ (ih (i + 1))

theorem agentBlocksAux_filter (bpr : Nat) (w h : ℚ) (cs : List String) : ∀ row col : Nat,
    BuildingBlockAgent.agentBlocksAux bpr w h cs row col =
      BuildingBlockAgent.agentBlocksAux bpr w h
        (cs.filter (fun c => BuildingBlockAgent.knownAgent c)) row col := by
  induction cs with
  | nil => intro row col; rfl
  | cons c cs ih =>
    intro row col
    by_cases hc : BuildingBlockAgent.knownAgent c = true
    · simp only [List.filter_cons, hc, if_true, BuildingBlockAgent.agentBlocksAux]
      by_cases hcol : col + 1 ≥ bpr
      · rw [if_pos hcol, if_pos hcol, ih (row + 1) 0]
      · rw [if_neg hcol, if_neg hcol, ih row (col + 1)]
    · simp only [List.filter_cons, hc, if_false, BuildingBlockAgent.agentBlocksAux]
      exact ih row col

theorem directBlocksAux_geom (n : Nat) (cs1 : List String) :
    ∀ (cs2 : List String) (i : Nat),
      (∀ c ∈ cs1, DirectGenerator.knownDirect c = true) →
      (∀ c ∈ cs2, DirectGenerator.knownDirect c = true) →
      cs1.length = cs2.length →
      (DirectGenerator.directBlocksAux n cs1 i).map Block.geom =
        (DirectGenerator.directBlocksAux n cs2 i).map Block.geom := by
  induction cs1 with
  | nil =>
    intro cs2 i _ _ hlen
    cases cs2 with
    | nil => rfl
    | cons b m => simp at hlen
  | cons a l ih =>
    intro cs2 i h1 h2 hlen
    cases cs2 with
    | nil => simp at hlen
    | cons b m =>
      have ha := h1 a (List.mem_cons_self a l)
      have hb := h2 b (List.mem_cons_self b m)
      simp only [DirectGenerator.directBlocksAux, ha, hb, if_true, List.singleton_append,
        List.map_cons]
      congr 1
      exact ih m (i + 1) (fun c hc => h1 c (List.mem_cons_of_mem a hc))
        (fun c hc => h2 c (List.mem_cons_of_mem b hc)) (by simpa using hlen)

theorem agentBlocksAux_geom (bpr : Nat) (w h : ℚ) (cs1 : List String) :
    ∀ (cs2 : List String) (row col : Nat),
      (∀ c ∈ cs1, BuildingBlockAgent.knownAgent c = true) →
      (∀ c ∈ cs2, BuildingBlockAgent.knownAgent c = true) →
      cs1.length = cs2.length →
      (BuildingBlockAgent.agentBlocksAux bpr w h cs1 row col).map Block.geom =
        (BuildingBlockAgent.agentBlocksAux bpr w h cs2 row col).map Block.geom := by
  induction cs1 with
  | nil =>
    intro cs2 row col _ _ hlen
    cases cs2 with
    | nil => rfl
    | cons b m => simp at hlen
  | cons a l ih =>
    intro cs2 row col h1 h2 hlen
    cases cs2 with
    | nil => simp at hlen
    | cons b m =>
      have ha := h1 a (List.mem_cons_self a l)
      have hb := h2 b (List.mem_cons_self b m)
      simp only [BuildingBlockAgent.agentBlocksAux, ha, hb, if_true, List.map_cons]
      by_cases hcol : col + 1 ≥ bpr
      · rw [if_pos hcol, if_pos hcol]
        congr 1
        exact ih m (row + 1) 0 (fun c hc => h1 c (List.mem_cons_of_mem a hc))
          (fun c hc => h2 c (List.mem_cons_of_mem b hc)) (by simpa using hlen)
      · rw [if_neg hcol, if_neg hcol]
        congr 1
        exact ih m row (col + 1) (fun c hc => h1 c (List.mem_cons_of_mem a hc))
          (fun c hc => h2 c (List.mem_cons_of_mem b hc)) (by simpa using hlen)

theorem numKnownAgent_of_allKnown {cs : List String}
    (h : ∀ c ∈ cs, BuildingBlockAgent.knownAgent c = true) :
    BuildingBlockAgent.numKnownAgent cs = cs.length := by
  unfold BuildingBlockAgent.numKnownAgent
  rw [List.filter_eq_self.mpr h]

theorem directBlocksAux_wh (n : Nat) (cs : List String) : ∀ (i : Nat) (b : Block),
    b ∈ DirectGenerator.directBlocksAux n cs i →
      b.w = DirectGenerator.directW n ∧ b.h = DirectGenerator.directH n := by
  induction cs with
  | nil => intro i b hb; simp [DirectGenerator.directBlocksAux] at hb
  | cons c cs ih =>
    intro i b hb
    by_cases hc : DirectGenerator.knownDirect c = true
    · simp only [DirectGenerator.directBlocksAux, hc, if_true, List.singleton_append] at hb
      rcases List.mem_cons.mp hb with rfl | hb'
      · exact ⟨rfl, rfl⟩
      · exact ih (i + 1) b hb'
    · simp only [DirectGenerator.directBlocksAux, hc, if_false, List.nil_append] at hb
      exact ih (i + 1) b hb

theorem agentBlocksAux_wh (bpr : Nat) (w h : ℚ) (cs : List String) :
    ∀ (row col : Nat) (b : Block),
      b ∈ BuildingBlockAgent.agentBlocksAux bpr w h cs row col → b.w = w ∧ b.h = h := by
  induction cs with
  | nil => intro row col b hb; simp [BuildingBlockAgent.agentBlocksAux] at hb
  | cons c cs ih =>
    intro row col b hb
    by_cases hc : BuildingBlockAgent.knownAgent c = true
    · simp only [BuildingBlockAgent.agentBlocksAux, hc, if_true] at hb
      rcases List.mem_cons.mp hb with rfl | hb'
      · exact ⟨rfl, rfl⟩
      · by_cases hcol : col + 1 ≥ bpr
        · rw [if_pos hcol] at hb'
          exact ih (row + 1) 0 b hb'
        · rw [if_neg hcol] at hb'
          exact ih row (col + 1) b hb'
    · simp only [BuildingBlockAgent.agentBlocksAux, hc, if_false] at hb
      exact ih row col b hb

theorem not_mem_ite_nil {c : Prop} [Decidable c] {x : String} {L : List String}
    (hx : x ∉ L) : x ∉ (if c then L else []) := by
  split
  · exact hx
  · exact List.not_mem_nil x

theorem containsSub_ws_false (kw : List Char) (s : List Char)
    (hs : ∀ c ∈ s, c.isWhitespace = true) (hkw : ∃ c ∈ kw, c.isWhitespace = false) :
    containsSub kw s = false :=
  containsSub_eq_false_of_whitespace hs hkw

theorem infrastructure_not_mem_kw (r : List Char) :
    "infrastructure" ∉ BuildingBlockAgent.needed_categories_kw r := by
  intro hmem
  simp only [BuildingBlockAgent.needed_categories_kw, List.mem_append] at hmem
  rcases hmem with ((((((((h | h) | h) | h) | h) | h) | h) | h) | h) <;>
    exact not_mem_ite_nil (by decide) h

/-! ### Claim theorems -/

/-- Claim C2 (corrected): on the input "web portal with a database" the
`BuildingBlockAgent` classifier returns a sequence containing both
`web_application` and `data_platform`, but the
`DirectBuildingBlockGenerator`/unified classifier returns only
`["web_application"]`, because its data-platform check is nested inside
the AI/analytics branch and no AI keyword occurs in the input. -/
theorem spec_C2 :
    "web_application" ∈
      BuildingBlockAgent.analyze_requirements (("web portal with a database").toList)
    ∧ "data_platform" ∈
      BuildingBlockAgent.analyze_requirements (("web portal with a database").toList)
    ∧ DirectGenerator.analyze_requirements (("web portal with a database").toList) =
      ["web_application"] :=
  ⟨by decide, by decide, by decide⟩

/-- Claim C2, counterexample to the claim as stated: the cited
`DirectBuildingBlockGenerator.analyze_requirements` does not put
`data_platform` in the result for "web portal with a database". -/
theorem spec_C2_counterexample :
    "data_platform" ∉
      DirectGenerator.analyze_requirements (("web portal with a database").toList) := by
  decide

/-- Claim C6 (confirmed): the `BuildingBlockAgent` classifier always
returns a non-empty sequence whose last element is `infrastructure`,
for every input; the direct/unified variant never returns
`infrastructure` at all.  On "AI-powered customer service with
analytics" both contain `ai_analytics` and the agent variant ends with
`infrastructure`. -/
theorem spec_C6 :
    (∀ s : List Char, BuildingBlockAgent.analyze_requirements s ≠ [] ∧
       (BuildingBlockAgent.analyze_requirements s).getLast? = some "infrastructure")
    ∧ (∀ s : List Char, "infrastructure" ∉ DirectGenerator.analyze_requirements s)
    ∧ "ai_analytics" ∈ BuildingBlockAgent.analyze_requirements
        (("AI-powered customer service with analytics").toList)
    ∧ (BuildingBlockAgent.analyze_requirements
        (("AI-powered customer service with analytics").toList)).getLast? =
        some "infrastructure"
    ∧ "ai_analytics" ∈ DirectGenerator.analyze_requirements
        (("AI-powered customer service with analytics").toList) := by
  refine ⟨fun s => ?_, fun s => ?_, by decide, by decide, by decide⟩
  · have hlast : (BuildingBlockAgent.analyze_requirements s).getLast? =
        some "infrastructure" := by
      unfold BuildingBlockAgent.analyze_requirements BuildingBlockAgent.needed_categories_pre
      exact dedupFirst_concat_getLast _ _ (infrastructure_not_mem_kw (lowerStr s))
    refine ⟨fun hnil => ?_, hlast⟩
    rw [hnil] at hlast
    simp at hlast
  · intro hmem
    unfold DirectGenerator.analyze_requirements at hmem
    rw [mem_dedupFirst] at hmem
    simp only [DirectGenerator.categories_pre, List.mem_append] at hmem
    rcases hmem with (h | h) | h
    · exact not_mem_ite_nil (by decide) h
    · revert h
      split
      · intro h
        rcases List.mem_cons.mp h with h' | h'
        · exact absurd h' (by decide)
        · exact not_mem_ite_nil (by decide) h'
      · exact List.not_mem_nil _
    · exact not_mem_ite_nil (by decide) h

/-- Claim C7 (confirmed): both classifiers return duplicate-free
sequences; the result is a subsequence of the pre-deduplication list
built in the fixed order of the keyword checks and keeps exactly its
members; and any two members are ordered in the result exactly as
their FIRST occurrences in that pre-list (`List.indexOf` is the
first-occurrence index) — so later duplicate triggers are suppressed
and the first occurrence wins, ruling out e.g. a last-occurrence-wins
ordering. -/
theorem spec_C7 : ∀ s : List Char,
    (DirectGenerator.analyze_requirements s).Nodup
    ∧ (BuildingBlockAgent.analyze_requirements s).Nodup
    ∧ List.Sublist (DirectGenerator.analyze_requirements s)
        (DirectGenerator.categories_pre (lowerStr s))
    ∧ List.Sublist (BuildingBlockAgent.analyze_requirements s)
        (BuildingBlockAgent.needed_categories_pre (lowerStr s))
    ∧ (∀ x : String, x ∈ DirectGenerator.analyze_requirements s ↔
        x ∈ DirectGenerator.categories_pre (lowerStr s))
    ∧ (∀ x : String, x ∈ BuildingBlockAgent.analyze_requirements s ↔
        x ∈ BuildingBlockAgent.needed_categories_pre (lowerStr s))
    ∧ (∀ x y : String, x ∈ DirectGenerator.categories_pre (lowerStr s) →
        y ∈ DirectGenerator.categories_pre (lowerStr s) →
        ((DirectGenerator.analyze_requirements s).indexOf x <
            (DirectGenerator.analyze_requirements s).indexOf y ↔
          (DirectGenerator.categories_pre (lowerStr s)).indexOf x <
            (DirectGenerator.categories_pre (lowerStr s)).indexOf y))
    ∧ (∀ x y : String, x ∈ BuildingBlockAgent.needed_categories_pre (lowerStr s) →
        y ∈ BuildingBlockAgent.needed_categories_pre (lowerStr s) →
        ((BuildingBlockAgent.analyze_requirements s).indexOf x <
            (BuildingBlockAgent.analyze_requirements s).indexOf y ↔
          (BuildingBlockAgent.needed_categories_pre (lowerStr s)).indexOf x <
            (BuildingBlockAgent.needed_categories_pre (lowerStr s)).indexOf y)) := by
  intro s
  exact ⟨dedupFirst_nodup _, dedupFirst_nodup _, dedupFirst_sublist _, dedupFirst_sublist _,
    fun x => mem_dedupFirst x _, fun x => mem_dedupFirst x _,
    fun x y hx hy => dedupFirst_indexOf_lt _ x y hx hy,
    fun x y hx hy => dedupFirst_indexOf_lt _ x y hx hy⟩

/-- Claim C7, witness: on "frontend analytics" the agent pre-list is
`[web_application, ai_analytics, data_platform, ai_analytics,
web_application, infrastructure]` — it has duplicate triggers — and the
first-occurrence order characterization is exercised at two concrete
members in each variant. -/
theorem spec_C7_witness :
    ((DirectGenerator.analyze_requirements (("frontend analytics").toList)).indexOf
        "web_application" <
      (DirectGenerator.analyze_requirements (("frontend analytics").toList)).indexOf
        "ai_analytics" ↔
      (DirectGenerator.categories_pre (lowerStr (("frontend analytics").toList))).indexOf
        "web_application" <
      (DirectGenerator.categories_pre (lowerStr (("frontend analytics").toList))).indexOf
        "ai_analytics")
    ∧ ((BuildingBlockAgent.analyze_requirements (("frontend analytics").toList)).indexOf
        "web_application" <
      (BuildingBlockAgent.analyze_requirements (("frontend analytics").toList)).indexOf
        "data_platform" ↔
      (BuildingBlockAgent.needed_categories_pre
          (lowerStr (("frontend analytics").toList))).indexOf "web_application" <
      (BuildingBlockAgent.needed_categories_pre
          (lowerStr (("frontend analytics").toList))).indexOf "data_platform") :=
  ⟨(spec_C7 (("frontend analytics").toList)).2.2.2.2.2.2.1 "web_application" "ai_analytics"
      (by decide) (by decide),
   (spec_C7 (("frontend analytics").toList)).2.2.2.2.2.2.2 "web_application" "data_platform"
      (by decide) (by decide)⟩

/-- Claim C8 (confirmed): on an empty or whitespace-only input the
direct/unified classifier returns `[]` and the `BuildingBlockAgent`
classifier returns exactly `["infrastructure"]` — precisely the
unconditionally appended categories of each variant. -/
theorem spec_C8 (s : List Char) (hws : ∀ c ∈ s, c.isWhitespace = true) :
    DirectGenerator.analyze_requirements s = []
    ∧ BuildingBlockAgent.analyze_requirements s = ["infrastructure"] := by
  have hws' := lowerStr_whitespace hws
  constructor
  · unfold DirectGenerator.analyze_requirements DirectGenerator.categories_pre
    rw [anyKw_eq_false_of_whitespace DirectGenerator.web_terms _ hws' (by decide),
        anyKw_eq_false_of_whitespace DirectGenerator.ai_terms _ hws' (by decide),
        anyKw_eq_false_of_whitespace DirectGenerator.integration_terms _ hws' (by decide)]
    simp [dedupFirst, dedupFirstAux]
  · unfold BuildingBlockAgent.analyze_requirements BuildingBlockAgent.needed_categories_pre
      BuildingBlockAgent.needed_categories_kw
    rw [containsSub_ws_false (("user experience").toList) _ hws' (by decide),
        containsSub_ws_false (("ux").toList) _ hws' (by decide),
        containsSub_ws_false (("frontend").toList) _ hws' (by decide),
        containsSub_ws_false (("application layer").toList) _ hws' (by decide),
        containsSub_ws_false (("app layer").toList) _ hws' (by decide),
        containsSub_ws_false (("data and intelligence").toList) _ hws' (by decide),
        containsSub_ws_false (("data intelligence").toList) _ hws' (by decide),
        containsSub_ws_false (("analytics").toList) _ hws' (by decide),
        containsSub_ws_false (("integration layer").toList) _ hws' (by decide),
        anyKw_eq_false_of_whitespace BuildingBlockAgent.ai_keywords _ hws' (by decide),
        anyKw_eq_false_of_whitespace BuildingBlockAgent.web_keywords _ hws' (by decide),
        anyKw_eq_false_of_whitespace BuildingBlockAgent.data_keywords _ hws' (by decide),
        anyKw_eq_false_of_whitespace BuildingBlockAgent.integration_keywords _ hws'
          (by decide),
        anyKw_eq_false_of_whitespace BuildingBlockAgent.security_keywords _ hws' (by decide)]
    simp [dedupFirst, dedupFirstAux]

/-- Claim C8, witness: the one-space requirement string. -/
theorem spec_C8_witness :
    DirectGenerator.analyze_requirements ((" ").toList) = []
    ∧ BuildingBlockAgent.analyze_requirements ((" ").toList) = ["infrastructure"] :=
  spec_C8 ((" ").toList) (by decide)

/-- Claim C10 (confirmed): in the direct/unified classifier,
`data_platform` can only appear after `ai_analytics` (it is appended
only inside the AI/analytics branch), so its presence implies the
presence of `ai_analytics` at a strictly smaller index. -/
theorem spec_C10 (s : List Char)
    (hdp : "data_platform" ∈ DirectGenerator.analyze_requirements s) :
    "ai_analytics" ∈ DirectGenerator.analyze_requirements s
    ∧ (DirectGenerator.analyze_requirements s).indexOf "ai_analytics" <
        (DirectGenerator.analyze_requirements s).indexOf "data_platform" := by
  revert hdp
  unfold DirectGenerator.analyze_requirements DirectGenerator.categories_pre
  split_ifs <;> decide

/-- Claim C10, witness: the input "ai data" triggers both categories in
the claimed order. -/
theorem spec_C10_witness :
    "ai_analytics" ∈ DirectGenerator.analyze_requirements (("ai data").toList)
    ∧ (DirectGenerator.analyze_requirements (("ai data").toList)).indexOf "ai_analytics" <
        (DirectGenerator.analyze_requirements (("ai data").toList)).indexOf "data_platform" :=
  spec_C10 (("ai data").toList) (by decide)

/-- Claim C1 (corrected): the layout routines are total over every
category list for which `blocks_per_row` is nonzero — every non-empty
list for the direct/unified variant, every list with at least one
catalog-known id for the `BuildingBlockAgent` variant — but not over the
empty list: there `blocks_per_row = num_categories = 0` and the
`security_y_pos` expression `(num_categories - 1) // blocks_per_row`
raises `ZeroDivisionError` (modelled as `none`). -/
theorem spec_C1 :
    (∀ cs : List String, cs ≠ [] →
       (DirectGenerator.create_conceptual_slide cs).isSome = true)
    ∧ (∀ cs : List String, 0 < BuildingBlockAgent.numKnownAgent cs →
       (BuildingBlockAgent.create_building_block_slide cs).isSome = true) := by
  constructor
  · intro cs hne
    have hn : 0 < cs.length := List.length_pos.mpr hne
    unfold DirectGenerator.create_conceptual_slide
    rw [if_neg (directBPR_ne_zero hn)]
    rfl
  · intro cs hn
    simp only [BuildingBlockAgent.create_building_block_slide]
    rw [if_neg (agentBPR_ne_zero hn)]
    rfl

/-- Claim C1, witness: singleton inputs succeed in both variants. -/
theorem spec_C1_witness :
    (DirectGenerator.create_conceptual_slide ["web_application"]).isSome = true
    ∧ (BuildingBlockAgent.create_building_block_slide ["security"]).isSome = true :=
  ⟨spec_C1.1 ["web_application"] (by decide), spec_C1.2 ["security"] (by decide)⟩

/-- Claim C1, counterexample to totality as stated: the empty category
list makes the direct/unified layout divide by zero, and a list with no
catalog-known id does the same in the `BuildingBlockAgent` layout. -/
theorem spec_C1_counterexample :
    DirectGenerator.create_conceptual_slide [] = none
    ∧ BuildingBlockAgent.create_building_block_slide ["banana"] = none := by
  exact ⟨by decide, by decide⟩

/-- Claim C3 (corrected): in the direct/unified layout a catalog-known
category at list index `i` is placed at the grid cell derived from the
raw index (`row = i // blocks_per_row`, `col = i % blocks_per_row`), so
an unknown id still consumes its slot; in
`BuildingBlockAgent.create_building_block_slide` the row/column
counters advance only on catalog-known ids, so the block list equals
that of the list with all unknown ids removed — the unknown id consumes
no slot there. -/
theorem spec_C3 :
    (∀ (pre post : List String) (c : String), DirectGenerator.knownDirect c = true →
       DirectGenerator.directBlockAt (pre ++ c :: post).length pre.length c ∈
         DirectGenerator.directBlocksAux (pre ++ c :: post).length (pre ++ c :: post) 0)
    ∧ (∀ (cs : List String) (bpr : Nat) (w h : ℚ) (row col : Nat),
       BuildingBlockAgent.agentBlocksAux bpr w h cs row col =
         BuildingBlockAgent.agentBlocksAux bpr w h
           (cs.filter (fun c => BuildingBlockAgent.knownAgent c)) row col) := by
  constructor
  · intro pre post c hc
    simpa using directBlocksAux_mem (pre ++ c :: post).length c hc post pre 0
  · intro cs bpr w h row col
    exact agentBlocksAux_filter bpr w h cs row col

/-- Claim C3, witness: in the direct layout, `web_application` at index
1 after an unknown id is placed in the slot of index 1. -/
theorem spec_C3_witness :
    DirectGenerator.directBlockAt 2 1 "web_application" ∈
      DirectGenerator.directBlocksAux 2 ["zzz", "web_application"] 0 :=
  spec_C3.1 ["zzz"] [] "web_application" (by decide)

/-- Claim C3, counterexample to the claim as stated: in
`BuildingBlockAgent.create_building_block_slide`, the known category
after one unknown id lands at `(row, col) = (0, 0)` — the position of
the list with the unknown id removed — and not at the slot
`(1 / blocks_per_row, 1 % blocks_per_row)` of its raw index. -/
theorem spec_C3_counterexample :
    (blocksOf (BuildingBlockAgent.create_building_block_slide
       ["zzz", "web_application"])).map (fun b => (b.row, b.col)) = [(0, 0)]
    ∧ (blocksOf (BuildingBlockAgent.create_building_block_slide
       ["web_application"])).map (fun b => (b.row, b.col)) = [(0, 0)]
    ∧ (1 / BuildingBlockAgent.agentBPR 1, 1 % BuildingBlockAgent.agentBPR 1) ≠
        ((0 : Nat), (0 : Nat)) :=
  ⟨by decide, by decide, by decide⟩

/-- Claim C4 (corrected): the three-tier step function (1–3 one row at
2.8-wide blocks, 4–6 three per row at a smaller mid-tier size, more than
6 three per row at a still smaller size) holds for
`BuildingBlockAgent.create_building_block_slide`; the direct/unified
layout has only two tiers — above 3 categories it always uses the
2.5 by 2.0 mid-tier size, with no smaller `>6` tier.  A 5-category list
yields two rows of 3 and 2 blocks at mid-tier size in both variants. -/
theorem spec_C4 :
    (∀ n : Nat, 1 ≤ n → n ≤ 3 →
       BuildingBlockAgent.agentBPR n = n ∧ BuildingBlockAgent.agentW n = 2.8 ∧
         BuildingBlockAgent.agentH n = 2.0)
    ∧ (∀ n : Nat, 4 ≤ n → n ≤ 6 →
       BuildingBlockAgent.agentBPR n = 3 ∧ BuildingBlockAgent.agentW n = 2.5 ∧
         BuildingBlockAgent.agentH n = 1.8)
    ∧ (∀ n : Nat, 7 ≤ n →
       BuildingBlockAgent.agentBPR n = 3 ∧ BuildingBlockAgent.agentW n = 2.2 ∧
         BuildingBlockAgent.agentH n = 1.5)
    ∧ (∀ n : Nat, n ≤ 3 →
       DirectGenerator.directBPR n = n ∧ DirectGenerator.directW n = 2.8 ∧
         DirectGenerator.directH n = 2.2)
    ∧ (∀ n : Nat, 4 ≤ n →
       DirectGenerator.directBPR n = 3 ∧ DirectGenerator.directW n = 2.5 ∧
         DirectGenerator.directH n = 2.0)
    ∧ (blocksOf (BuildingBlockAgent.create_building_block_slide
         ["ai_analytics", "web_application", "data_platform", "integration", "security"])).map
         (fun b => (b.row, b.col)) = [(0, 0), (0, 1), (0, 2), (1, 0), (1, 1)]
    ∧ (∀ b ∈ blocksOf (BuildingBlockAgent.create_building_block_slide
         ["ai_analytics", "web_application", "data_platform", "integration", "security"]),
         b.w = 2.5 ∧ b.h = 1.8)
    ∧ (blocksOf (DirectGenerator.create_conceptual_slide
         ["web_application", "ai_analytics", "data_platform", "integration",
          "web_application"])).map (fun b => (b.row, b.col)) =
         [(0, 0), (0, 1), (0, 2), (1, 0), (1, 1)]
    ∧ (∀ b ∈ blocksOf (DirectGenerator.create_conceptual_slide
         ["web_application", "ai_analytics", "data_platform", "integration",
          "web_application"]), b.w = 2.5 ∧ b.h = 2.0) := by
  refine ⟨?_, ?_, ?_, ?_, ?_, by decide, ?_, by decide, ?_⟩
  · intro n h1 h2
    unfold BuildingBlockAgent.agentBPR BuildingBlockAgent.agentW BuildingBlockAgent.agentH
    rw [if_pos h2, if_pos h2, if_pos h2]
    exact ⟨rfl, rfl, rfl⟩
  · intro n h1 h2
    have h3 : ¬ n ≤ 3 := by omega
    unfold BuildingBlockAgent.agentBPR BuildingBlockAgent.agentW BuildingBlockAgent.agentH
    rw [if_neg h3, if_neg h3, if_neg h3, if_pos h2, if_pos h2, if_pos h2]
    exact ⟨rfl, rfl, rfl⟩
  · intro n h1
    have h3 : ¬ n ≤ 3 := by omega
    have h6 : ¬ n ≤ 6 := by omega
    unfold BuildingBlockAgent.agentBPR BuildingBlockAgent.agentW BuildingBlockAgent.agentH
    rw [if_neg h3, if_neg h3, if_neg h3, if_neg h6, if_neg h6, if_neg h6]
    exact ⟨rfl, rfl, rfl⟩
  · intro n h2
    unfold DirectGenerator.directBPR DirectGenerator.directW DirectGenerator.directH
    rw [if_pos h2, if_pos h2, if_pos h2]
    exact ⟨rfl, rfl, rfl⟩
  · intro n h1
    have h3 : ¬ n ≤ 3 := by omega
    unfold DirectGenerator.directBPR DirectGenerator.directW DirectGenerator.directH
    rw [if_neg h3, if_neg h3, if_neg h3]
    exact ⟨rfl, rfl, rfl⟩
  · intro b hb
    have h5 : BuildingBlockAgent.numKnownAgent
        ["ai_analytics", "web_application", "data_platform", "integration", "security"] = 5 :=
      by decide
    have hbpr : BuildingBlockAgent.agentBPR 5 = 3 := by decide
    have hb' : b ∈ BuildingBlockAgent.agentBlocksAux 3 (BuildingBlockAgent.agentW 5)
        (BuildingBlockAgent.agentH 5)
        ["ai_analytics", "web_application", "data_platform", "integration", "security"] 0 0 := by
      simpa [blocksOf, BuildingBlockAgent.create_building_block_slide, h5, hbpr] using hb
    have hwh := agentBlocksAux_wh 3 (BuildingBlockAgent.agentW 5)
      (BuildingBlockAgent.agentH 5) _ 0 0 b hb'
    constructor
    · rw [hwh.1]
      norm_num [BuildingBlockAgent.agentW]
    · rw [hwh.2]
      norm_num [BuildingBlockAgent.agentH]
  · intro b hb
    have hl : (["web_application", "ai_analytics", "data_platform", "integration",
        "web_application"] : List String).length = 5 := by decide
    have hbpr : DirectGenerator.directBPR 5 = 3 := by decide
    have hb' : b ∈ DirectGenerator.directBlocksAux 5
        ["web_application", "ai_analytics", "data_platform", "integration",
         "web_application"] 0 := by
      simpa [blocksOf, DirectGenerator.create_conceptual_slide, hl, hbpr] using hb
    have hwh := directBlocksAux_wh 5 _ 0 b hb'
    constructor
    · rw [hwh.1]
      norm_num [DirectGenerator.directW]
    · rw [hwh.2]
      norm_num [DirectGenerator.directH]

/-- Claim C4, witness: one representative of each tier. -/
theorem spec_C4_witness :
    (BuildingBlockAgent.agentBPR 2 = 2 ∧ BuildingBlockAgent.agentW 2 = 2.8 ∧
      BuildingBlockAgent.agentH 2 = 2.0)
    ∧ (BuildingBlockAgent.agentBPR 5 = 3 ∧ BuildingBlockAgent.agentW 5 = 2.5 ∧
      BuildingBlockAgent.agentH 5 = 1.8)
    ∧ (BuildingBlockAgent.agentBPR 9 = 3 ∧ BuildingBlockAgent.agentW 9 = 2.2 ∧
      BuildingBlockAgent.agentH 9 = 1.5)
    ∧ (DirectGenerator.directBPR 3 = 3 ∧ DirectGenerator.directW 3 = 2.8 ∧
      DirectGenerator.directH 3 = 2.2)
    ∧ (DirectGenerator.directBPR 7 = 3 ∧ DirectGenerator.directW 7 = 2.5 ∧
      DirectGenerator.directH 7 = 2.0) :=
  ⟨spec_C4.1 2 (by decide) (by decide),
   spec_C4.2.1 5 (by decide) (by decide),
   spec_C4.2.2.1 9 (by decide),
   spec_C4.2.2.2.1 3 (by decide),
   spec_C4.2.2.2.2.1 7 (by decide)⟩

/-- Claim C4, counterexample to the claim as stated: in the
direct/unified layout a 7-category list gets exactly the 4–6 tier block
size, not a "still smaller" one. -/
theorem spec_C4_counterexample :
    DirectGenerator.directW 7 = DirectGenerator.directW 5
    ∧ DirectGenerator.directH 7 = DirectGenerator.directH 5
    ∧ ¬ DirectGenerator.directW 7 < DirectGenerator.directW 5 := by
  refine ⟨?_, ?_, ?_⟩ <;>
    norm_num [DirectGenerator.directW, DirectGenerator.directH]

/-- Claim C5 (corrected): both layout routines are pure functions, and
for lists of catalog-known category ids the emitted geometry (grid
cells, offsets, sizes, strip) depends only on the list length: two
equal-length all-known lists produce identical geometry.  (With unknown
idsในthe list this fails — see the counterexample — because blocks are
emitted only for known ids.) -/
theorem spec_C5 :
    (∀ cs1 cs2 : List String,
       (∀ c ∈ cs1, DirectGenerator.knownDirect c = true) →
       (∀ c ∈ cs2, DirectGenerator.knownDirect c = true) →
       cs1.length = cs2.length → geomDirect cs1 = geomDirect cs2)
    ∧ (∀ cs1 cs2 : List String,
       (∀ c ∈ cs1, BuildingBlockAgent.knownAgent c = true) →
       (∀ c ∈ cs2, BuildingBlockAgent.knownAgent c = true) →
       cs1.length = cs2.length → geomAgent cs1 = geomAgent cs2) := by
  constructor
  · intro cs1 cs2 h1 h2 hlen
    unfold geomDirect DirectGenerator.create_conceptual_slide
    rw [hlen]
    by_cases hb : DirectGenerator.directBPR cs2.length = 0
    · rw [if_pos hb, if_pos hb]
    · rw [if_neg hb, if_neg hb]
      have hgeom := directBlocksAux_geom cs2.length cs1 cs2 0 h1 h2 hlen
      simp only [Option.map_some', hgeom]
  · intro cs1 cs2 h1 h2 hlen
    have e1 := numKnownAgent_of_allKnown h1
    have e2 := numKnownAgent_of_allKnown h2
    simp only [geomAgent, BuildingBlockAgent.create_building_block_slide]
    rw [e1, e2, hlen]
    by_cases hb : BuildingBlockAgent.agentBPR cs2.length = 0
    · rw [if_pos hb, if_pos hb]
    · rw [if_neg hb, if_neg hb]
      have hgeom := agentBlocksAux_geom (BuildingBlockAgent.agentBPR cs2.length)
        (BuildingBlockAgent.agentW cs2.length) (BuildingBlockAgent.agentH cs2.length)
        cs1 cs2 0 0 h1 h2 hlen
      simp only [Option.map_some', hgeom]

/-- Claim C5, witness: two different all-known lists of length 2 per
variant produce identical geometry. -/
theorem spec_C5_witness :
    geomDirect ["web_application", "ai_analytics"] =
      geomDirect ["data_platform", "integration"]
    ∧ geomAgent ["security", "infrastructure"] =
      geomAgent ["integration", "web_application"] :=
  ⟨spec_C5.1 _ _ (by decide) (by decide) rfl, spec_C5.2 _ _ (by decide) (by decide) rfl⟩

/-- Claim C5, counterexample to the claim over arbitrary equal-length
lists: a known singleton and an unknown singleton have the same length
but yield one block versus none. -/
theorem spec_C5_counterexample :
    (geomDirect ["web_application"]).map (fun p => p.1.length) = some 1
    ∧ (geomDirect ["zzz"]).map (fun p => p.1.length) = some 0
    ∧ geomDirect ["web_application"] ≠ geomDirect ["zzz"] := by
  refine ⟨by decide, by decide, fun hgeom => ?_⟩
  have h2 := congrArg (Option.map (fun p => p.1.length)) hgeom
  rw [(by decide : (geomDirect ["web_application"]).map (fun p => p.1.length) = some 1),
      (by decide : (geomDirect ["zzz"]).map (fun p => p.1.length) = some 0)] at h2
  exact absurd (Option.some.inj h2) (by decide)

/-- Claim C9 (corrected): whenever the layout succeeds — every non-empty
list in the direct/unified variant, every list with a catalog-known id
in the agent variant — the cross-cutting strip contains exactly 7 boxes
independent of the category list; on the empty list (resp. all-unknown
lists) the routine divides by zero before laying out any strip box, so
the "including the empty list" part of the claim fails. -/
theorem spec_C9 :
    (∀ cs : List String, cs ≠ [] →
       (DirectGenerator.create_conceptual_slide cs).map (fun L => L.strip.length) = some 7)
    ∧ (∀ cs : List String, 0 < BuildingBlockAgent.numKnownAgent cs →
       (BuildingBlockAgent.create_building_block_slide cs).map (fun L => L.strip.length) =
         some 7) := by
  constructor
  · intro cs hne
    have hn : 0 < cs.length := List.length_pos.mpr hne
    unfold DirectGenerator.create_conceptual_slide
    rw [if_neg (directBPR_ne_zero hn)]
    simp [stripBoxes_length, DirectGenerator.conceptual_cross_cutting]
  · intro cs hn
    simp only [BuildingBlockAgent.create_building_block_slide]
    rw [if_neg (agentBPR_ne_zero hn)]
    simp [stripBoxes_length, BuildingBlockAgent.cross_cutting_services]

/-- Claim C9, witness: singleton inputs get a 7-box strip. -/
theorem spec_C9_witness :
    (DirectGenerator.create_conceptual_slide ["integration"]).map
      (fun L => L.strip.length) = some 7
    ∧ (BuildingBlockAgent.create_building_block_slide ["infrastructure"]).map
      (fun L => L.strip.length) = some 7 :=
  ⟨spec_C9.1 ["integration"] (by decide), spec_C9.2 ["infrastructure"] (by decide)⟩

/-- Claim C9, counterexample to "including the empty list": on the empty
list the direct/unified layout produces no strip at all. -/
theorem spec_C9_counterexample :
    (DirectGenerator.create_conceptual_slide []).map (fun L => L.strip.length) = none := by
  decide
